import Mathlib

/-!
Shallow embedding of `include/assimp/metadata.h` (assimp metadata container).

The header defines:
  * the `aiType` enum (six payload kinds plus the `FORCE_32BIT` padding value),
  * the overload set `GetAiType` mapping each concrete C++ payload type to its
    `aiType` tag,
  * `transform(aiType, void*, callable)`, the dispatch switch over the tag,
  * `aiMetaDataEntry` (tag plus erased `void*` payload pointer), and
  * `aiMetadata` (parallel key/value arrays with `Set`/`Get` and a destructor).

Modelling choices:
  * Payload values are only ever copied by this header (no arithmetic), so
    `float` is modelled as an opaque bit pattern, C++ `int` as `Int` and
    `uint64_t` as `Nat`; copying preserves equality, which is all the code uses.
  * The erased `void*` payload pointers are addresses into an explicit `Heap`
    of payload cells; `new T(value)` is `Heap.alloc`. The `mKeys`/`mValues`
    arrays themselves are not heap cells: a NULL array pointer is modelled by
    `Option` on the field, and `delete []` of an array is recorded as an event.
  * A failed `assert` and an out-of-range / through-NULL access are modelled as
    `Except.error` outcomes (`Fault.assertViolation` resp. `Fault.invalidAccess`);
    the normal path returns the updated heap/store and the written outputs, so
    the embedding records every write the source performs.
-/

/-- aiString: opaque, comparable, copyable string value type (external to this
header); only its equality comparison and copying are used here. -/
structure aiString where
  str : String
deriving DecidableEq

/-- C++ float, opaque 32-bit pattern: the header only copies floats. -/
structure CFloat where
  bits : Nat
deriving DecidableEq

/-- aiVector3D: three float components, treated as an opaque copyable value. -/
structure aiVector3D where
  x : CFloat
  y : CFloat
  z : CFloat
deriving DecidableEq

/-- enum aiType (metadata.h lines 57-67): the six payload kinds, plus the
FORCE_32BIT padding constant that is also a legal value of the enum. -/
inductive aiType
  | AI_BOOL
  | AI_INT
  | AI_UINT64
  | AI_FLOAT
  | AI_AISTRING
  | AI_AIVECTOR3D
  | FORCE_32BIT
deriving DecidableEq, Fintype

/-- The numeric values the enum declares (FORCE_32BIT = INT_MAX). -/
def aiTypeNum : aiType → Nat
  | .AI_BOOL => 0
  | .AI_INT => 1
  | .AI_UINT64 => 2
  | .AI_FLOAT => 3
  | .AI_AISTRING => 4
  | .AI_AIVECTOR3D => 5
  | .FORCE_32BIT => 2147483647

/-- The six concrete C++ types for which a `GetAiType` overload exists
(metadata.h lines 93-98): bool, int, uint64_t, float, aiString, aiVector3D.
This type has exactly one constructor per overload; there is no fallback. -/
inductive ConcreteType
  | tBool
  | tInt
  | tUInt64
  | tFloat
  | tAiString
  | tAiVector3D
deriving DecidableEq, Fintype

/-- The GetAiType overload set (metadata.h lines 93-98), one rule per type. -/
def GetAiType : ConcreteType → aiType
  | .tBool => .AI_BOOL
  | .tInt => .AI_INT
  | .tUInt64 => .AI_UINT64
  | .tFloat => .AI_FLOAT
  | .tAiString => .AI_AISTRING
  | .tAiVector3D => .AI_AIVECTOR3D

/-- A payload value of one of the six storable concrete types. -/
inductive AiValue
  | vBool (b : Bool)
  | vInt (i : Int)
  | vUInt64 (n : Nat)
  | vFloat (f : CFloat)
  | vAiString (s : aiString)
  | vVector3D (v : aiVector3D)
deriving DecidableEq

/-- The (static) concrete type of a payload value. -/
def typeOfValue : AiValue → ConcreteType
  | .vBool _ => .tBool
  | .vInt _ => .tInt
  | .vUInt64 _ => .tUInt64
  | .vFloat _ => .tFloat
  | .vAiString _ => .tAiString
  | .vVector3D _ => .tAiVector3D

/-- Heap of payload cells produced by `new T(value)`: a fresh-address counter
and an association list of live cells, newest first. -/
structure Heap where
  next : Nat
  cells : List (Nat × AiValue)
deriving DecidableEq

/-- new T(value): allocate a fresh cell holding a copy of the value. -/
def Heap.alloc (H : Heap) (v : AiValue) : Heap × Nat :=
  ({ next := H.next + 1, cells := (H.next, v) :: H.cells }, H.next)

/-- Dereference a payload pointer; `none` when no live cell has this address. -/
def Heap.read (H : Heap) (a : Nat) : Option AiValue :=
  (H.cells.find? fun c => c.1 == a).map (fun c => c.2)

/-- struct aiMetaDataEntry (metadata.h lines 78-82): a tag and the erased
payload pointer. -/
structure aiMetaDataEntry where
  type : aiType
  data : Nat
deriving DecidableEq

/-- struct aiMetadata (metadata.h lines 165-246): property count and the two
parallel arrays. Each array pointer may be NULL (`none`); when present, it is
the list of array elements. -/
structure aiMetadata where
  mNumProperties : Nat
  mKeys : Option (List aiString)
  mValues : Option (List aiMetaDataEntry)
deriving DecidableEq

/-- The default constructor (metadata.h lines 180-185): both array pointers
NULL and the property count zero. -/
def aiMetadataDefault : aiMetadata :=
  { mNumProperties := 0, mKeys := none, mValues := none }

/-- Abnormal outcomes: a failed `assert`, or an access the C++ program performs
without any check that is undefined behaviour in the model (reading or writing
out of an array's range, or through a NULL array pointer). -/
inductive Fault
  | assertViolation
  | invalidAccess
deriving DecidableEq

/-- template Set(unsigned index, const std string and key, const T and value)
(metadata.h lines 206-219):
  assert(index < mNumProperties);
  mKeys[index] = key;
  mValues[index].type = GetAiType(value);
  mValues[index].data = new T(value);
No release of any previously held `mValues[index].data` occurs. The two array
writes require the array pointers to be valid and long enough; otherwise the
execution is an invalid access. -/
def aiMetadata.Set (H : Heap) (m : aiMetadata) (index : Nat) (key : aiString)
    (value : AiValue) : Except Fault (Heap × aiMetadata) :=
  if index < m.mNumProperties then
    match m.mKeys, m.mValues with
    | some ks, some vs =>
      if index < ks.length ∧ index < vs.length then
        let a := Heap.alloc H value
        .ok (a.1, { mNumProperties := m.mNumProperties,
                    mKeys := some (ks.set index key),
                    mValues := some (vs.set index
                      { type := GetAiType (typeOfValue value), data := a.2 }) })
      else .error .invalidAccess
    | _, _ => .error .invalidAccess
  else .error .assertViolation

/-- template Get(unsigned index, T and value) (metadata.h lines 221-233):
  if (GetAiType(value) != mValues[index].type) return false;
  value = *static_cast(mValues[index].data); return true;
There is no range check on `index`: the read of `mValues[index].type` is
unchecked, so an out-of-range `index` (or a NULL `mValues`) is an invalid
access, not an assertion. `t` is the static type of the out-parameter `value`
and `out` its prior contents. On the match path, `*static_cast` assumes the
cell's dynamic type is `t`; a lying tag would be undefined behaviour. The
result carries the heap, the store, the returned bool and the out-parameter's
final contents, recording every write the member function performs. -/
def aiMetadata.GetIdx (H : Heap) (m : aiMetadata) (index : Nat) (t : ConcreteType)
    (out : AiValue) : Except Fault (Heap × aiMetadata × Bool × AiValue) :=
  match m.mValues with
  | some vs =>
    match vs[index]? with
    | some entry =>
      if GetAiType t ≠ entry.type then
        .ok (H, m, false, out)
      else
        match Heap.read H entry.data with
        | some v => if typeOfValue v = t then .ok (H, m, true, v) else .error .invalidAccess
        | none => .error .invalidAccess
    | none => .error .invalidAccess
  | none => .error .invalidAccess

/-- The index sequence `s, s+1, ..., s+n-1` visited by a C++ loop
`for (i = s; i < s + n; ++i)`. -/
def loopIdxs : Nat → Nat → List Nat
  | _, 0 => []
  | s, n + 1 => s :: loopIdxs (s + 1) n

/-- The body of the key-lookup loop of Get(const aiString and key, T and value)
(metadata.h lines 239-241), iterated over the remaining index sequence:
  for (unsigned i = 0; i < mNumProperties; ++i)
    if (mKeys[i] == key) return Get(i, value);
Reading `mKeys[i]` requires the keys array to be valid and long enough. -/
def aiMetadata.GetKeyLoop (H : Heap) (m : aiMetadata) (key : aiString)
    (t : ConcreteType) (out : AiValue) :
    List Nat → Except Fault (Heap × aiMetadata × Bool × AiValue)
  | [] => .ok (H, m, false, out)
  | i :: rest =>
    match m.mKeys with
    | some ks =>
      match ks[i]? with
      | some k =>
        if k = key then aiMetadata.GetIdx H m i t out
        else aiMetadata.GetKeyLoop H m key t out rest
      | none => .error .invalidAccess
    | none => .error .invalidAccess

/-- template Get(const aiString and key, T and value) (metadata.h lines
235-243): scan indices 0..mNumProperties-1 in order; on the first equal key
delegate to Get(i, value); return false if no key matches. -/
def aiMetadata.GetKey (H : Heap) (m : aiMetadata) (key : aiString)
    (t : ConcreteType) (out : AiValue) :
    Except Fault (Heap × aiMetadata × Bool × AiValue) :=
  aiMetadata.GetKeyLoop H m key t out (loopIdxs 0 m.mNumProperties)

/-- Events observable during destruction: deletion of the keys array, deletion
of the values array, an invocation of the transform callable on an entry, a
failed `assert`, and an unchecked out-of-range entry read. -/
inductive DtorOp
  | deleteKeysArr
  | deleteValuesArr
  | invokeOp (t : aiType) (addr : Nat)
  | assertFailed
  | invalidRead
deriving DecidableEq

/-- template transform(aiType type, void* data, callable c) (metadata.h lines
114-141), at the one instantiation the header creates (the destructor's
`callable = void (*)(void*)`, the address of operator delete). Each enum case
of the switch executes the statement
  callable(static_cast<T*>(data));
in which `callable` names the template TYPE parameter, not the parameter `c`:
the statement is a functional-notation cast of the data pointer to the
function-pointer type `callable`, whose value is discarded. The parameter `c`
does not occur in the function body, so no case invokes the callable and the
heap is untouched; the `default` case executes assert(false). The result is
the heap after the call and the list of events the call performs. -/
def transformStep (H : Heap) (type : aiType) (data : Nat) : Heap × List DtorOp :=
  match type, data with
  | .AI_BOOL, _ => (H, [])
  | .AI_INT, _ => (H, [])
  | .AI_UINT64, _ => (H, [])
  | .AI_FLOAT, _ => (H, [])
  | .AI_AISTRING, _ => (H, [])
  | .AI_AIVECTOR3D, _ => (H, [])
  | .FORCE_32BIT, _ => (H, [.assertFailed])

/-- The contract transform's own documentation comment states (metadata.h
lines 102-112: applies the callable `c` to the given data of the given type,
as `c(T* data)` with `T` the type the tag denotes). Written from those words,
to compare with `transformStep`, the translation of the body: one invocation
of the operation on the re-typed pointer per non-default case. -/
def transformSpec (H : Heap) (type : aiType) (data : Nat) : Heap × List DtorOp :=
  match type with
  | .FORCE_32BIT => (H, [.assertFailed])
  | t => (H, [.invokeOp t data])

/-- The destructor's per-entry loop (metadata.h lines 196-197), iterated over
the remaining index sequence:
  for (unsigned i = 0; i < mNumProperties; ++i)
    transform(mValues[i], (void (*)(void*))(operator delete));
Reading `mValues[i]` past the array's end is an unchecked invalid read. -/
def dtorLoop (H : Heap) (vs : List aiMetaDataEntry) :
    List Nat → Heap × List DtorOp
  | [] => (H, [])
  | i :: rest =>
    match vs[i]? with
    | some e =>
      let s1 := transformStep H e.type e.data
      let s2 := dtorLoop s1.1 vs rest
      (s2.1, s1.2 ++ s2.2)
    | none => (H, [.invalidRead])

/-- The destructor ~aiMetadata (metadata.h lines 189-202):
  if (mKeys) delete [] mKeys;
  if (mValues) { for each i < mNumProperties: transform(mValues[i], ...);
                 delete [] mValues; }
The result is the payload heap after destruction and the event list, in
program order. -/
def aiMetadata.destructor (H : Heap) (m : aiMetadata) : Heap × List DtorOp :=
  let keysTr : List DtorOp :=
    match m.mKeys with
    | some _ => [.deleteKeysArr]
    | none => []
  match m.mValues with
  | some vs =>
    let s := dtorLoop H vs (loopIdxs 0 m.mNumProperties)
    (s.1, keysTr ++ s.2 ++ [.deleteValuesArr])
  | none => (H, keysTr)

/-- The payload addresses the store references (the `data` fields of its
entries). -/
def storeRefs (m : aiMetadata) : List Nat :=
  match m.mValues with
  | some vs => vs.map (fun e => e.data)
  | none => []

/-- Whether a destruction event is an invocation of the transform callable. -/
def DtorOp.isInvoke : DtorOp → Bool
  | .invokeOp _ _ => true
  | _ => false

instance {ε α : Type} [DecidableEq ε] [DecidableEq α] : DecidableEq (Except ε α) := fun x y =>
  match x, y with
  | .ok a, .ok b =>
    if h : a = b then isTrue (congrArg Except.ok h)
    else isFalse (fun hc => h (Except.ok.inj hc))
  | .error a, .error b =>
    if h : a = b then isTrue (congrArg Except.error h)
    else isFalse (fun hc => h (Except.error.inj hc))
  | .ok _, .error _ => isFalse (fun hc => Except.noConfusion hc)
  | .error _, .ok _ => isFalse (fun hc => Except.noConfusion hc)

/-- A concrete three-slot store used to exercise the theorems: keys
a, b, a with payloads int 1, float 2.0f, bool true (the duplicate-key
example of the metadata round-trip discussion). Addresses 0, 1, 2 live in
`sampleHeap`; 1073741824 is the bit pattern of 2.0f. -/
def sampleHeap : Heap :=
  { next := 3,
    cells := [(0, .vInt 1), (1, .vFloat { bits := 1073741824 }), (2, .vBool true)] }

/-- The store over `sampleHeap`: keys a, b, a; tags AI_INT, AI_FLOAT, AI_BOOL. -/
def sampleStore : aiMetadata :=
  { mNumProperties := 3,
    mKeys := some [{ str := "a" }, { str := "b" }, { str := "a" }],
    mValues := some [{ type := .AI_INT, data := 0 },
                     { type := .AI_FLOAT, data := 1 },
                     { type := .AI_BOOL, data := 2 }] }

/-- A one-slot store over a heap holding its single bool payload at address 0,
used to exercise destruction. -/
def leakHeap : Heap := { next := 1, cells := [(0, .vBool true)] }

/-- The one-slot store over `leakHeap`. -/
def leakStore : aiMetadata :=
  { mNumProperties := 1,
    mKeys := some [{ str := "k" }],
    mValues := some [{ type := .AI_BOOL, data := 0 }] }

/-- A one-slot store whose slot has not been set yet, over an empty heap;
the placeholder entry models the indeterminate fresh array element. -/
def rsStore : aiMetadata :=
  { mNumProperties := 1,
    mKeys := some [{ str := "" }],
    mValues := some [{ type := .AI_BOOL, data := 0 }] }

/-- C9: the type registry (the GetAiType overload set) is a total function
over exactly the six supported concrete types, one mapping rule per type with
no fallback (totality is the totality of `GetAiType : ConcreteType → aiType`,
whose domain has exactly one constructor per overload), and it is injective;
moreover every value kind other than the FORCE_32BIT padding constant is the
image of exactly one concrete type. -/
theorem getAiType_total_injective :
    (∀ t₁ t₂ : ConcreteType, GetAiType t₁ = GetAiType t₂ → t₁ = t₂)
    ∧ (∀ k : aiType, k ≠ aiType.FORCE_32BIT →
        ∃ t : ConcreteType, GetAiType t = k ∧
          ∀ t' : ConcreteType, GetAiType t' = k → t' = t) := by
  decide

/-- C8: destroying a default-constructed store (property count zero, both
array pointers NULL) performs no operations at all and leaves the payload
heap untouched. -/
theorem destructor_default_noop (H : Heap) :
    aiMetadata.destructor H aiMetadataDefault = (H, []) := rfl

/-- C4: the dispatch mechanism does NOT invoke the supplied operation: at kind
AI_BOOL and data pointer 7 the translated body performs no events (the source
statement casts the pointer to the callable type and discards it), while the
contract written from transform's own documentation comment performs exactly
one invocation of the operation on the re-typed pointer; the two disagree. -/
theorem transform_never_invokes_callable :
    transformStep { next := 0, cells := [] } .AI_BOOL 7 = ({ next := 0, cells := [] }, [])
    ∧ transformSpec { next := 0, cells := [] } .AI_BOOL 7
        = ({ next := 0, cells := [] }, [.invokeOp .AI_BOOL 7])
    ∧ transformStep { next := 0, cells := [] } .AI_BOOL 7
        ≠ transformSpec { next := 0, cells := [] } .AI_BOOL 7 := by
  refine ⟨rfl, rfl, ?_⟩
  decide

/-- C1: Get by index on an entry whose stored kind differs from the kind the
out-parameter's static type maps to returns false and writes nothing: the
heap, the store and the out-parameter are returned exactly as they were. -/
theorem getIdx_type_mismatch_no_write (H : Heap) (m : aiMetadata) (i : Nat)
    (vs : List aiMetaDataEntry) (entry : aiMetaDataEntry) (t : ConcreteType)
    (out : AiValue) (hvs : m.mValues = some vs) (he : vs[i]? = some entry)
    (ht : GetAiType t ≠ entry.type) :
    aiMetadata.GetIdx H m i t out = .ok (H, m, false, out) := by
  simp only [aiMetadata.GetIdx, hvs, he]
  rw [if_pos ht]

/-- Witness for C1: on the sample store, reading slot 0 (an AI_INT entry)
into a bool out-parameter holding false returns false and leaves everything
unchanged. -/
theorem getIdx_type_mismatch_no_write_w :
    aiMetadata.GetIdx sampleHeap sampleStore 0 .tBool (.vBool false)
      = .ok (sampleHeap, sampleStore, false, .vBool false) :=
  getIdx_type_mismatch_no_write sampleHeap sampleStore 0 _
    { type := .AI_INT, data := 0 } .tBool (.vBool false) rfl rfl (by decide)

/-- Counterexample to C5: on the sample store (property count 3), Get at the
out-of-range index 5 does not take the contract-violation (assertion) path:
it performs an unchecked out-of-range read of the entry array. -/
theorem getIdx_oob_not_assert_cex :
    aiMetadata.GetIdx sampleHeap sampleStore 5 .tInt (.vInt 0) = .error .invalidAccess
    ∧ aiMetadata.GetIdx sampleHeap sampleStore 5 .tInt (.vInt 0)
        ≠ .error .assertViolation := by
  refine ⟨rfl, ?_⟩
  decide

/-- C5 as amended: with an index at or beyond the property count, Set fails
its in-range assertion (the contract-violation path), while Get by index
performs no bounds check at all and proceeds to an unchecked out-of-range read
of the entry array (undefined behaviour, not an assertion). -/
theorem set_oob_asserts_getIdx_oob_reads (H : Heap) (m : aiMetadata) (i : Nat)
    (key : aiString) (v : AiValue) (t : ConcreteType) (out : AiValue)
    (vs : List aiMetaDataEntry) (hvs : m.mValues = some vs)
    (hvl : vs.length = m.mNumProperties) (hi : m.mNumProperties ≤ i) :
    aiMetadata.Set H m i key v = .error .assertViolation
    ∧ aiMetadata.GetIdx H m i t out = .error .invalidAccess := by
  constructor
  · simp only [aiMetadata.Set]
    rw [if_neg (Nat.not_lt.2 hi)]
  · have hnone : vs[i]? = none := List.getElem?_eq_none (by omega)
    simp only [aiMetadata.GetIdx, hvs, hnone]

/-- Witness for the amended C5 on the sample store at index 5. -/
theorem set_oob_asserts_getIdx_oob_reads_w :
    aiMetadata.Set sampleHeap sampleStore 5 { str := "z" } (.vInt 9)
        = .error .assertViolation
    ∧ aiMetadata.GetIdx sampleHeap sampleStore 5 .tUInt64 (.vUInt64 0)
        = .error .invalidAccess :=
  set_oob_asserts_getIdx_oob_reads sampleHeap sampleStore 5 { str := "z" }
    (.vInt 9) .tUInt64 (.vUInt64 0) _ rfl rfl (by decide)

/-- The translated dispatch body never changes the heap and never emits an
invocation of the callable, whatever the tag: every enum case is the
cast-and-discard statement and the default case only fails the assertion. -/
theorem transformStep_no_invoke (H : Heap) (t : aiType) (a : Nat) :
    (transformStep H t a).1 = H
    ∧ (transformStep H t a).2.countP DtorOp.isInvoke = 0 := by
  cases t <;> exact ⟨rfl, rfl⟩

/-- The destructor's per-entry loop leaves the heap unchanged and invokes the
callable zero times, over any index sequence. -/
theorem dtorLoop_no_invoke (vs : List aiMetaDataEntry) :
    ∀ (l : List Nat) (H : Heap),
      (dtorLoop H vs l).1 = H ∧ (dtorLoop H vs l).2.countP DtorOp.isInvoke = 0 := by
  intro l
  induction l with
  | nil => intro H; exact ⟨rfl, rfl⟩
  | cons i rest ih =>
    intro H
    cases hv : vs[i]? with
    | none => simp [dtorLoop, hv, DtorOp.isInvoke]
    | some e =>
      have h1 := transformStep_no_invoke H e.type e.data
      have h2 := ih (transformStep H e.type e.data).1
      simp only [dtorLoop, hv]
      constructor
      · rw [h2.1, h1.1]
      · rw [List.countP_append, h1.2, h2.2]

/-- Counterexample to C6: destroying the one-slot store leaves its bool
payload (address 0) still allocated in the heap and performs no invocation of
any per-entry operation: the trace holds only the two array deletions, so no
re-typed destructor ran and the slot's backing allocation was not released. -/
theorem destructor_leaves_payload_cex :
    aiMetadata.destructor leakHeap leakStore
        = (leakHeap, [.deleteKeysArr, .deleteValuesArr])
    ∧ Heap.read (aiMetadata.destructor leakHeap leakStore).1 0 = some (.vBool true)
    ∧ (aiMetadata.destructor leakHeap leakStore).2.countP DtorOp.isInvoke = 0 :=
  ⟨rfl, rfl, rfl⟩

/-- C6 as amended: on destruction, for every occupied slot the store enters
the dispatch switch with the slot's kind tag, but the supplied deallocation
operation is never invoked and no slot payload is released (the payload heap
is returned unchanged, so every payload leaks); when both arrays are present
and index-aligned, and no tag is the FORCE_32BIT padding value, the only
operations performed are the deletion of the keys array and of the values
array themselves. -/
theorem destructor_no_release (H : Heap) (m : aiMetadata) (ks : List aiString)
    (vs : List aiMetaDataEntry) (hks : m.mKeys = some ks)
    (hvs : m.mValues = some vs) (hvl : vs.length = m.mNumProperties)
    (hty : ∀ e ∈ vs, e.type ≠ aiType.FORCE_32BIT) :
    aiMetadata.destructor H m = (H, [.deleteKeysArr, .deleteValuesArr]) := by
  have loop : ∀ (n s : Nat), s + n = vs.length → dtorLoop H vs (loopIdxs s n) = (H, []) := by
    intro n
    induction n with
    | zero => intro s _; rfl
    | succ n ih =>
      intro s hs
      have hslt : s < vs.length := by omega
      have hgs : vs[s]? = some vs[s] := List.getElem?_eq_getElem hslt
      have hmem : vs[s] ∈ vs := List.getElem_mem hslt
      have hstep : transformStep H (vs[s]).type (vs[s]).data = (H, []) := by
        cases htc : (vs[s]).type
        case FORCE_32BIT => exact absurd htc (hty _ hmem)
        all_goals rfl
      show dtorLoop H vs (s :: loopIdxs (s + 1) n) = (H, [])
      simp only [dtorLoop, hgs, hstep, ih (s + 1) (by omega)]
      rfl
  simp only [aiMetadata.destructor, hks, hvs, loop m.mNumProperties 0 (by omega)]
  rfl

/-- Witness for the amended C6 on the one-slot store. -/
theorem destructor_no_release_w :
    aiMetadata.destructor leakHeap leakStore
      = (leakHeap, [.deleteKeysArr, .deleteValuesArr]) :=
  destructor_no_release leakHeap leakStore _ _ rfl rfl rfl (by decide)

/-- In-range Set: the value of Set when the index is within the property
count and both arrays are present and at least as long as the count. -/
theorem set_ok (H : Heap) (m : aiMetadata) (i : Nat) (key : aiString)
    (v : AiValue) (ks : List aiString) (vs : List aiMetaDataEntry)
    (hks : m.mKeys = some ks) (hvs : m.mValues = some vs)
    (hkl : ks.length = m.mNumProperties) (hvl : vs.length = m.mNumProperties)
    (hi : i < m.mNumProperties) :
    aiMetadata.Set H m i key v
      = .ok ({ next := H.next + 1, cells := (H.next, v) :: H.cells },
             { mNumProperties := m.mNumProperties,
               mKeys := some (ks.set i key),
               mValues := some (vs.set i
                 { type := GetAiType (typeOfValue v), data := H.next }) }) := by
  simp only [aiMetadata.Set, hks, hvs]
  rw [if_pos hi, if_pos ⟨by omega, by omega⟩]
  rfl

/-- Matching Get by index: when the entry's tag equals the kind of the
out-parameter's static type and its pointer dereferences to a value of that
type, Get returns true with that value and changes nothing else. -/
theorem getIdx_hit (H : Heap) (m : aiMetadata) (i : Nat) (t : ConcreteType)
    (out v : AiValue) (vs : List aiMetaDataEntry) (entry : aiMetaDataEntry)
    (hvs : m.mValues = some vs) (he : vs[i]? = some entry)
    (hk : entry.type = GetAiType t) (ht : typeOfValue v = t)
    (hr : Heap.read H entry.data = some v) :
    aiMetadata.GetIdx H m i t out = .ok (H, m, true, v) := by
  simp only [aiMetadata.GetIdx, hvs, he, hk, hr]
  rw [if_neg (fun hcon => hcon rfl), if_pos ht]

/-- C2: round-trip: for every payload value v, key and in-range index, Set
followed by Get at the same index with an out-parameter of v's static type
returns true and sets the out-parameter to a value equal to v. -/
theorem set_get_roundtrip (H : Heap) (m : aiMetadata) (i : Nat) (key : aiString)
    (v out : AiValue) (ks : List aiString) (vs : List aiMetaDataEntry)
    (hks : m.mKeys = some ks) (hvs : m.mValues = some vs)
    (hkl : ks.length = m.mNumProperties) (hvl : vs.length = m.mNumProperties)
    (hi : i < m.mNumProperties) :
    ∃ H' m', aiMetadata.Set H m i key v = .ok (H', m')
      ∧ aiMetadata.GetIdx H' m' i (typeOfValue v) out = .ok (H', m', true, v) := by
  refine ⟨_, _, set_ok H m i key v ks vs hks hvs hkl hvl hi, ?_⟩
  refine getIdx_hit _ _ i (typeOfValue v) out v
    (vs.set i { type := GetAiType (typeOfValue v), data := H.next })
    { type := GetAiType (typeOfValue v), data := H.next } rfl ?_ rfl rfl ?_
  · exact List.getElem?_set_eq_of_lt _ (by omega)
  · simp [Heap.read, List.find?]

/-- Witness for C2: setting a float into the one-slot store and reading it
back through a float out-parameter succeeds and yields the value. -/
theorem set_get_roundtrip_w :
    ∃ H' m',
      aiMetadata.Set { next := 0, cells := [] } rsStore 0 { str := "x" }
          (.vFloat { bits := 7 }) = .ok (H', m')
      ∧ aiMetadata.GetIdx H' m' 0 .tFloat (.vFloat { bits := 0 })
          = .ok (H', m', true, .vFloat { bits := 7 }) :=
  set_get_roundtrip { next := 0, cells := [] } rsStore 0 { str := "x" }
    (.vFloat { bits := 7 }) (.vFloat { bits := 0 }) _ _ rfl rfl rfl rfl (by decide)

/-- Counterexample to C3: from the fresh one-slot store over the empty heap,
Set(0, k1, int 3) then Set(0, k2, uint64 5): the second Set releases nothing;
afterwards the first value's cell (address 0) is still allocated while the
store references only address 1, so the prior value's storage is leaked. -/
theorem set_reset_no_release_cex :
    aiMetadata.Set { next := 0, cells := [] } rsStore 0 { str := "k1" } (.vInt 3)
      = .ok ({ next := 1, cells := [(0, .vInt 3)] },
             { mNumProperties := 1, mKeys := some [{ str := "k1" }],
               mValues := some [{ type := .AI_INT, data := 0 }] })
    ∧ aiMetadata.Set { next := 1, cells := [(0, .vInt 3)] }
        { mNumProperties := 1, mKeys := some [{ str := "k1" }],
          mValues := some [{ type := .AI_INT, data := 0 }] }
        0 { str := "k2" } (.vUInt64 5)
      = .ok ({ next := 2, cells := [(1, .vUInt64 5), (0, .vInt 3)] },
             { mNumProperties := 1, mKeys := some [{ str := "k2" }],
               mValues := some [{ type := .AI_UINT64, data := 1 }] })
    ∧ Heap.read { next := 2, cells := [(1, .vUInt64 5), (0, .vInt 3)] } 0
        = some (.vInt 3)
    ∧ Heap.read { next := 2, cells := [(1, .vUInt64 5), (0, .vInt 3)] } 0 ≠ none
    ∧ storeRefs { mNumProperties := 1, mKeys := some [{ str := "k2" }],
                  mValues := some [{ type := .AI_UINT64, data := 1 }] } = [1] := by
  refine ⟨rfl, rfl, rfl, ?_, rfl⟩
  decide

/-- C3 as amended: a second Set at an occupied index installs fresh storage
for the new value WITHOUT releasing the previously-held entry's storage: the
prior value's cell is still allocated afterwards (it is leaked, since the
entry now references the new cell instead), and every subsequent Get at that
index with the new value's type observes only the new value. -/
theorem set_reset_leaks_prior (H : Heap) (m : aiMetadata) (i : Nat)
    (k₁ k₂ : aiString) (v₁ v₂ out : AiValue) (ks : List aiString)
    (vs : List aiMetaDataEntry) (hks : m.mKeys = some ks)
    (hvs : m.mValues = some vs) (hkl : ks.length = m.mNumProperties)
    (hvl : vs.length = m.mNumProperties) (hi : i < m.mNumProperties) :
    ∃ H₁ m₁ H₂ m₂,
      aiMetadata.Set H m i k₁ v₁ = .ok (H₁, m₁)
      ∧ aiMetadata.Set H₁ m₁ i k₂ v₂ = .ok (H₂, m₂)
      ∧ Heap.read H₂ H.next = some v₁
      ∧ (∃ vs₂, m₂.mValues = some vs₂
          ∧ vs₂[i]? = some { type := GetAiType (typeOfValue v₂), data := H.next + 1 })
      ∧ aiMetadata.GetIdx H₂ m₂ i (typeOfValue v₂) out = .ok (H₂, m₂, true, v₂) := by
  have h₁ := set_ok H m i k₁ v₁ ks vs hks hvs hkl hvl hi
  have h₂ := set_ok { next := H.next + 1, cells := (H.next, v₁) :: H.cells }
    { mNumProperties := m.mNumProperties,
      mKeys := some (ks.set i k₁),
      mValues := some (vs.set i { type := GetAiType (typeOfValue v₁), data := H.next }) }
    i k₂ v₂ (ks.set i k₁)
    (vs.set i { type := GetAiType (typeOfValue v₁), data := H.next }) rfl rfl
    (by simp only [List.length_set]; omega) (by simp only [List.length_set]; omega) hi
  have hset : ((vs.set i { type := GetAiType (typeOfValue v₁), data := H.next }).set i
      { type := GetAiType (typeOfValue v₂), data := H.next + 1 })[i]?
        = some { type := GetAiType (typeOfValue v₂), data := H.next + 1 } :=
    List.getElem?_set_eq_of_lt _ (by simp only [List.length_set]; omega)
  have hne : (H.next + 1 == H.next) = false := by simp
  refine ⟨_, _, _, _, h₁, h₂, ?_, ⟨_, rfl, hset⟩, ?_⟩
  · simp [Heap.read, List.find?, hne]
  · refine getIdx_hit _ _ i (typeOfValue v₂) out v₂ _ _ rfl hset rfl rfl ?_
    simp [Heap.read, List.find?]

/-- Witness for the amended C3 on the fresh one-slot store. -/
theorem set_reset_leaks_prior_w :
    ∃ H₁ m₁ H₂ m₂,
      aiMetadata.Set { next := 0, cells := [] } rsStore 0 { str := "k1" } (.vInt 3)
        = .ok (H₁, m₁)
      ∧ aiMetadata.Set H₁ m₁ 0 { str := "k2" } (.vUInt64 5) = .ok (H₂, m₂)
      ∧ Heap.read H₂ 0 = some (.vInt 3)
      ∧ (∃ vs₂, m₂.mValues = some vs₂
          ∧ vs₂[0]? = some { type := .AI_UINT64, data := 1 })
      ∧ aiMetadata.GetIdx H₂ m₂ 0 .tUInt64 (.vUInt64 0)
          = .ok (H₂, m₂, true, .vUInt64 5) :=
  set_reset_leaks_prior { next := 0, cells := [] } rsStore 0 { str := "k1" }
    { str := "k2" } (.vInt 3) (.vUInt64 5) (.vUInt64 0) _ _ rfl rfl rfl rfl
    (by decide)

/-- A successful Get by index returns the heap and the store it was given:
the member function writes only its out-parameter and its bool result. -/
theorem getIdx_frame_aux (H : Heap) (m : aiMetadata) (i : Nat) (t : ConcreteType)
    (out : AiValue) (r : Heap × aiMetadata × Bool × AiValue)
    (h : aiMetadata.GetIdx H m i t out = .ok r) : r.1 = H ∧ r.2.1 = m := by
  unfold aiMetadata.GetIdx at h
  repeat' split at h
  all_goals first
    | exact Except.noConfusion h
    | (injection h with h; subst h; exact ⟨rfl, rfl⟩)

/-- The key-lookup loop likewise returns the heap and store unchanged on any
successful outcome, over any index sequence. -/
theorem getKeyLoop_frame_aux (H : Heap) (m : aiMetadata) (key : aiString)
    (t : ConcreteType) (out : AiValue) :
    ∀ (l : List Nat) (r : Heap × aiMetadata × Bool × AiValue),
      aiMetadata.GetKeyLoop H m key t out l = .ok r → r.1 = H ∧ r.2.1 = m := by
  intro l
  induction l with
  | nil =>
    intro r h
    injection h with h
    subst h
    exact ⟨rfl, rfl⟩
  | cons i rest ih =>
    intro r h
    unfold aiMetadata.GetKeyLoop at h
    repeat' split at h
    all_goals first
      | exact Except.noConfusion h
      | exact getIdx_frame_aux H m i _ out r h
      | exact ih r h

/-- C10: neither Get overload ever modifies the store or the payload heap:
whenever Get by index or Get by key completes (returning true or false), the
heap and the store components of the result are exactly the ones passed in —
the property count, the keys array, and every entry's tag and pointer are
untouched. -/
theorem get_no_store_mutation :
    (∀ (H : Heap) (m : aiMetadata) (i : Nat) (t : ConcreteType) (out : AiValue)
        (r : Heap × aiMetadata × Bool × AiValue),
      aiMetadata.GetIdx H m i t out = .ok r → r.1 = H ∧ r.2.1 = m)
    ∧ (∀ (H : Heap) (m : aiMetadata) (key : aiString) (t : ConcreteType)
        (out : AiValue) (r : Heap × aiMetadata × Bool × AiValue),
      aiMetadata.GetKey H m key t out = .ok r → r.1 = H ∧ r.2.1 = m) :=
  ⟨fun H m i t out r h => getIdx_frame_aux H m i t out r h,
   fun H m key t out r h =>
     getKeyLoop_frame_aux H m key t out (loopIdxs 0 m.mNumProperties) r h⟩

/-- Witness for C10: the successful keyed lookup of a on the sample store
returns the sample heap and the sample store themselves. -/
theorem get_no_store_mutation_w :
    ((sampleHeap, sampleStore, true, AiValue.vInt 1) :
        Heap × aiMetadata × Bool × AiValue).1 = sampleHeap
    ∧ ((sampleHeap, sampleStore, true, AiValue.vInt 1) :
        Heap × aiMetadata × Bool × AiValue).2.1 = sampleStore :=
  get_no_store_mutation.2 sampleHeap sampleStore { str := "a" } .tInt (.vInt 0)
    (sampleHeap, sampleStore, true, .vInt 1) rfl

/-- The key-lookup loop starting at index s finds the first match at or after
s (and delegates to Get by that index), or returns false when no index at or
after s matches. -/
theorem getKeyLoop_scan (H : Heap) (m : aiMetadata) (key : aiString)
    (t : ConcreteType) (out : AiValue) (ks : List aiString)
    (hks : m.mKeys = some ks) :
    ∀ (n s : Nat), s + n = ks.length →
      ((∀ j, s ≤ j → ks[j]? ≠ some key) →
        aiMetadata.GetKeyLoop H m key t out (loopIdxs s n) = .ok (H, m, false, out))
      ∧ (∀ j, s ≤ j → ks[j]? = some key →
          (∀ j', s ≤ j' → j' < j → ks[j']? ≠ some key) →
          aiMetadata.GetKeyLoop H m key t out (loopIdxs s n)
            = aiMetadata.GetIdx H m j t out) := by
  intro n
  induction n with
  | zero =>
    intro s hs
    constructor
    · intro _
      rfl
    · intro j hsj hj _
      have hnone : ks[j]? = none := List.getElem?_eq_none (by omega)
      rw [hnone] at hj
      exact Option.noConfusion hj
  | succ n ih =>
    intro s hs
    have hslt : s < ks.length := by omega
    have hgs : ks[s]? = some ks[s] := List.getElem?_eq_getElem hslt
    have hunfold : aiMetadata.GetKeyLoop H m key t out (loopIdxs s (n + 1))
        = if ks[s] = key then aiMetadata.GetIdx H m s t out
          else aiMetadata.GetKeyLoop H m key t out (loopIdxs (s + 1) n) := by
      show aiMetadata.GetKeyLoop H m key t out (s :: loopIdxs (s + 1) n) = _
      simp only [aiMetadata.GetKeyLoop, hks, hgs]
    by_cases hk : ks[s] = key
    · constructor
      · intro hnone
        exact absurd (hgs.trans (congrArg some hk)) (hnone s (Nat.le_refl s))
      · intro j hsj hj hfirst
        have hjs : j = s := by
          by_contra hne
          have hlt : s < j := by omega
          exact hfirst s (Nat.le_refl s) hlt (hgs.trans (congrArg some hk))
        subst hjs
        rw [hunfold, if_pos hk]
    · constructor
      · intro hnone
        rw [hunfold, if_neg hk]
        exact (ih (s + 1) (by omega)).1 (fun j hj => hnone j (by omega))
      · intro j hsj hj hfirst
        have hjne : j ≠ s := by
          intro hcon
          subst hcon
          rw [hgs] at hj
          exact hk (Option.some.inj hj)
        rw [hunfold, if_neg hk]
        exact (ih (s + 1) (by omega)).2 j (by omega) hj
          (fun j' h1 h2 => hfirst j' (by omega) h2)

/-- C7: Get by key scans the keys in increasing index order: if index j holds
the first key equal to the argument (no smaller index matches), the call
equals Get by index at j — so with duplicate keys the first match in index
order decides, and whatever Get by index returns there (including a
type-mismatch false) is returned without retrying later duplicates; if no key
matches, the call returns false with the out-parameter untouched. -/
theorem getKey_scans_first_match (H : Heap) (m : aiMetadata) (key : aiString)
    (t : ConcreteType) (out : AiValue) (ks : List aiString)
    (hks : m.mKeys = some ks) (hlen : ks.length = m.mNumProperties) :
    (∀ j : Nat, ks[j]? = some key → (∀ j', j' < j → ks[j']? ≠ some key) →
      aiMetadata.GetKey H m key t out = aiMetadata.GetIdx H m j t out)
    ∧ ((∀ j : Nat, ks[j]? ≠ some key) →
      aiMetadata.GetKey H m key t out = .ok (H, m, false, out)) := by
  have h := getKeyLoop_scan H m key t out ks hks m.mNumProperties 0 (by omega)
  constructor
  · intro j hj hfirst
    exact h.2 j (Nat.zero_le j) hj (fun j' _ hlt => hfirst j' hlt)
  · intro hnone
    exact h.1 (fun j _ => hnone j)

/-- Witness for C7: on the sample store with keys a, b, a of kinds AI_INT,
AI_FLOAT, AI_BOOL, looking up a with an int out-parameter takes index 0 (the
first match), yielding true and the int payload 1, not the bool at index 2. -/
theorem getKey_scans_first_match_w :
    aiMetadata.GetKey sampleHeap sampleStore { str := "a" } .tInt (.vInt 0)
      = aiMetadata.GetIdx sampleHeap sampleStore 0 .tInt (.vInt 0)
    ∧ aiMetadata.GetKey sampleHeap sampleStore { str := "a" } .tInt (.vInt 0)
      = .ok (sampleHeap, sampleStore, true, .vInt 1) :=
  ⟨(getKey_scans_first_match sampleHeap sampleStore { str := "a" } .tInt
      (.vInt 0) _ rfl rfl).1 0 rfl
      (fun j' hlt => absurd hlt (Nat.not_lt_zero j')),
   by decide⟩


